import Mathlib

/-!
Verification of the ZonoCaller change-detection-and-resilient-update pipeline.

The definitions below are a shallow embedding of the fetcher component
(`internal/scheduler/scheduler.go`, fetcher part: `IPResponse`, `IPLogEntry`,
`Fetcher.FetchIP`, `Fetcher.fetchCurrentIP`, `Fetcher.readLastIP`,
`Fetcher.updateZonomiDNS`, `Fetcher.appendIP`).  External effects (HTTP
responses, file contents, the wall clock) are passed in explicitly; the
behaviour of the Go standard library (`encoding/json`, `bufio.Scanner`) and of
the `cenkalti/backoff/v4` retry combinator is modelled on the input subset the
program exercises.
-/

namespace ZonoCaller

/-- The opening-brace character, written via its code point. -/
def lbrace : Char := Char.ofNat 123

/-- The closing-brace character, written via its code point. -/
def rbrace : Char := Char.ofNat 125

/-- Whether a character is JSON insignificant whitespace. -/
def isJsonWs (c : Char) : Bool :=
  c = ' ' || c = '\t' || c = '\n' || c = '\r'

/-- Skip JSON whitespace at the front of a character list. -/
def skipWs : List Char → List Char
  | [] => []
  | c :: rest => if isJsonWs c then skipWs rest else c :: rest

/-- Parse the body of a JSON string literal (after the opening quote) up to the
closing quote, returning the content characters and the remainder.  Escape
sequences are outside the modelled subset and are rejected. -/
def parseStrChars : List Char → Option (List Char × List Char)
  | [] => none
  | c :: rest =>
    if c = '"' then some ([], rest)
    else if c = '\\' then none
    else match parseStrChars rest with
      | some (s, rem) => some (c :: s, rem)
      | none => none

/-- Parse the members of a JSON object after the opening brace, assuming at
least one member: a comma-separated list of string-key / string-value pairs,
ending at the closing brace.  The first argument is fuel bounding recursion. -/
def parseMembers : Nat → List Char → Option (List (String × String) × List Char)
  | 0, _ => none
  | fuel + 1, cs =>
    match skipWs cs with
    | '"' :: afterQuote =>
      match parseStrChars afterQuote with
      | none => none
      | some (k, afterKey) =>
        match skipWs afterKey with
        | ':' :: afterColon =>
          match skipWs afterColon with
          | '"' :: afterVQuote =>
            match parseStrChars afterVQuote with
            | none => none
            | some (v, afterVal) =>
              match skipWs afterVal with
              | ',' :: afterComma =>
                match parseMembers fuel afterComma with
                | some (ms, rem) => some ((String.mk k, String.mk v) :: ms, rem)
                | none => none
              | c :: afterClose =>
                if c = rbrace then some ([(String.mk k, String.mk v)], afterClose)
                else none
              | [] => none
          | _ => none
        | _ => none
    | _ => none

/-- Modelled from Go `encoding/json`: parse one input as a flat JSON object
whose values are all strings, returning its key/value members in textual
order, or `none` when the input is not such an object (a syntax error, for Go).
Inputs outside this subset (nested objects, non-string values, escape
sequences) are treated as decode failures; the program only ever produces and
consumes flat string objects. -/
def parseFlatObject (s : String) : Option (List (String × String)) :=
  match skipWs s.toList with
  | c :: rest =>
    if c = lbrace then
      match skipWs rest with
      | d :: rest2 =>
        if d = rbrace then
          if (skipWs rest2).isEmpty then some [] else none
        else
          match parseMembers (rest.length + 1) rest with
          | some (ms, rem) => if (skipWs rem).isEmpty then some ms else none
          | none => none
      | [] => none
    else none
  | [] => none

/-- Lower-case one ASCII letter, leaving other characters unchanged. -/
def charLower (c : Char) : Char :=
  if 'A' ≤ c ∧ c ≤ 'Z' then Char.ofNat (c.toNat + 32) else c

/-- Case folding of a string, character by character (the keys involved are
plain ASCII identifiers, for which Go's `strings.EqualFold` is exactly
ASCII case folding). -/
def foldCase (s : String) : List Char :=
  s.toList.map charLower

/-- Modelled from Go `encoding/json` field matching: an object key populates a
struct field when it equals the field's effective JSON name, matched
case-insensitively (Go prefers an exact match but a lone key matches either
way); with duplicate keys the later occurrence wins. -/
def goFieldValue (fieldName : String) (members : List (String × String)) : Option String :=
  ((members.filter fun kv => foldCase kv.1 = foldCase fieldName).getLast?).map Prod.snd

/-- IPLogEntry represents a single entry in the ip log file (scheduler.go).
The Go struct tag on the second field is written without quotes
(backquote json:timestamp backquote), which is malformed tag syntax; Go's
`reflect.StructTag.Get` therefore returns no json tag and `encoding/json`
falls back to the Go field name `Timestamp` as the JSON key. -/
structure IPLogEntry where
  IP : String
  Timestamp : String
deriving DecidableEq, Repr

/-- Effective JSON key of the `IP` field of `IPLogEntry`: the well-formed tag
json:"ip". -/
def ipLogEntryIPKey : String := "ip"

/-- Effective JSON key of the `Timestamp` field of `IPLogEntry`: the malformed
tag json:timestamp is ignored, so the field name itself is used. -/
def ipLogEntryTimestampKey : String := "Timestamp"

/-- json.Unmarshal of one log line into `IPLogEntry`.  A field whose key is
absent keeps the Go zero value, the empty string. -/
def unmarshalIPLogEntry (line : String) : Option IPLogEntry :=
  (parseFlatObject line).map fun ms =>
    { IP := (goFieldValue ipLogEntryIPKey ms).getD ""
      Timestamp := (goFieldValue ipLogEntryTimestampKey ms).getD "" }

/-- json.Unmarshal of the address-endpoint body into `IPResponse`
(scheduler.go: a one-field struct with tag json:"ip"), returning the `IP`
field.  A body that decodes but lacks the field yields the zero value "". -/
def unmarshalIPResponse (body : String) : Option String :=
  (parseFlatObject body).map fun ms => (goFieldValue "ip" ms).getD ""

/-- Go `encoding/json` escaping of one character inside a marshalled string:
quote, backslash, the common control characters, and the HTML-unsafe
characters that json.Marshal escapes by default. -/
def jsonEscapeChar (c : Char) : List Char :=
  if c = '"' then ['\\', '"']
  else if c = '\\' then ['\\', '\\']
  else if c = '\n' then ['\\', 'n']
  else if c = '\r' then ['\\', 'r']
  else if c = '\t' then ['\\', 't']
  else if c = '<' then ['\\', 'u', '0', '0', '3', 'c']
  else if c = '>' then ['\\', 'u', '0', '0', '3', 'e']
  else if c = '&' then ['\\', 'u', '0', '0', '2', '6']
  else [c]

/-- A marshalled JSON string literal: quoted and escaped. -/
def jsonQuote (s : String) : String :=
  String.mk ('"' :: (s.toList.map jsonEscapeChar).flatten ++ ['"'])

/-- json.Marshal of an `IPLogEntry` (the serialization `Fetcher.appendIP`
writes): fields in declaration order under their effective JSON keys — "ip"
for the address and, because the timestamp tag is malformed and ignored,
"Timestamp" for the timestamp. -/
def marshalIPLogEntry (e : IPLogEntry) : String :=
  String.mk [lbrace] ++ jsonQuote ipLogEntryIPKey ++ ":" ++ jsonQuote e.IP ++ "," ++
    jsonQuote ipLogEntryTimestampKey ++ ":" ++ jsonQuote e.Timestamp ++ String.mk [rbrace]

/-- Drop one trailing carriage return, as bufio.ScanLines does per line. -/
def dropCRChars (l : List Char) : List Char :=
  match l.getLast? with
  | some c => if c = '\r' then l.dropLast else l
  | none => l

/-- Modelled from Go `bufio.Scanner` with the default ScanLines split: emit
maximal '\n'-free tokens (each stripped of one trailing '\r'); a final token
before end of input is emitted only when non-empty, so a trailing newline does
not produce an empty final line.  The accumulator holds the current line
reversed. -/
def scanLinesAux : List Char → List Char → List String
  | acc, [] =>
    match acc with
    | [] => []
    | _ => [String.mk (dropCRChars acc.reverse)]
  | acc, c :: rest =>
    if c = '\n' then String.mk (dropCRChars acc.reverse) :: scanLinesAux [] rest
    else scanLinesAux (c :: acc) rest

/-- The list of lines a bufio.Scanner yields for a file content. -/
def scanLines (content : String) : List String :=
  scanLinesAux [] content.toList

/-- Fetcher.readLastIP (scheduler.go): the log file is modelled as
`Option String` (`none` when the file does not exist, in which case
os.IsNotExist makes the function return "" with no error).  When the file
exists every line is scanned; a line that json.Unmarshal decodes overwrites
`lastIP` with its `IP` field, a line that fails to decode is skipped.  Storage
medium read errors (a distinct error return in Go) are outside this model. -/
def readLastIP (file : Option String) : String :=
  match file with
  | none => ""
  | some content =>
    (scanLines content).foldl
      (fun lastIP line =>
        match unmarshalIPLogEntry line with
        | some entry => entry.IP
        | none => lastIP) ""

/-- Fetcher.appendIP (scheduler.go): opens the log with
O_APPEND|O_CREATE|O_WRONLY (an absent file behaves as empty), marshals one
`IPLogEntry` whose timestamp is the current time formatted as RFC3339
(modelled by the explicit `now` argument), and writes the record followed by
"\n".  The returned string is the file content after the write. -/
def appendIP (file : Option String) (ip : String) (now : String) : String :=
  (match file with
   | some content => content
   | none => "") ++ (marshalIPLogEntry { IP := ip, Timestamp := now } ++ "\n")

/-- Outcome of one HTTP round trip, as seen by the code: either the request
(or the body read, which the code treats the same way, as a retryable attempt
failure) fails with a message, or a response arrives with a status code, a
status text and a body. -/
inductive HTTPOutcome where
  | netErr (msg : String)
  | resp (status : Nat) (statusText : String) (body : String)
deriving DecidableEq, Repr

/-- The error one attempt of an operation can produce, mirroring the
fmt.Errorf cases in fetchCurrentIP and updateZonomiDNS: request failure,
non-200 status (updateZonomiDNS additionally captures the body; fetchCurrentIP
leaves it empty), or a json.Unmarshal failure. -/
inductive OpError where
  | reqFailed (msg : String)
  | badStatus (statusText : String) (body : String)
  | jsonErr
deriving DecidableEq, Repr

/-- Modelled from `cenkalti/backoff/v4`: the loop of `backoff.RetryNotify`
under `backoff.WithMaxRetries(delegate, maxRetries)`.  `op k` is the k-th
attempt of the operation (attempts numbered from 0), `delegateStop k` says
whether the wrapped exponential delegate returns `Stop` after failed attempt k
(it does so once its MaxElapsedTime is exceeded; RetryNotify resets the
delegate on entry, so each invocation starts fresh).  After a failed attempt
the tries wrapper stops when its retry budget is exhausted (immediately when
maxRetries = 0), otherwise it defers to the delegate.  Returns the number of
attempts performed and the result; on giving up the result is the error of the
last attempt, not a synthetic retries-exhausted error. -/
def retryGo (op : Nat → Except OpError α) (delegateStop : Nat → Bool) :
    Nat → Nat → Nat × Except OpError α
  | k, 0 =>
    (k + 1, match op k with
      | .ok a => .ok a
      | .error e => .error e)
  | k, r + 1 =>
    match op k with
    | .ok a => (k + 1, .ok a)
    | .error e =>
      if delegateStop k then (k + 1, .error e)
      else retryGo op delegateStop (k + 1) r

/-- backoff.RetryNotify with WithMaxRetries, started at attempt 0. -/
def retryNotify (op : Nat → Except OpError α) (delegateStop : Nat → Bool)
    (maxRetries : Nat) : Nat × Except OpError α :=
  retryGo op delegateStop 0 maxRetries

/-- The operation closed over by fetchCurrentIP: one GET of the address
endpoint, failing on request error, on non-200 status (the body is not
captured in that error message), or on json.Unmarshal failure; on success the
decoded `IP` field is the value. -/
def fetchOp (attempt : Nat → HTTPOutcome) (k : Nat) : Except OpError String :=
  match attempt k with
  | .netErr m => .error (.reqFailed m)
  | .resp status statusText body =>
    if status ≠ 200 then .error (.badStatus statusText "")
    else match unmarshalIPResponse body with
      | none => .error .jsonErr
      | some ip => .ok ip

/-- Fetcher.fetchCurrentIP: the fetch operation run under
backoff.RetryNotify(WithMaxRetries(retryBackoff, MaxRetries)).  Returns the
number of attempts performed and the result. -/
def fetchCurrentIP (attempt : Nat → HTTPOutcome) (delegateStop : Nat → Bool)
    (maxRetries : Nat) : Nat × Except OpError String :=
  retryNotify (fetchOp attempt) delegateStop maxRetries

/-- The per-host operation closed over by updateZonomiDNS: one GET of the
provider endpoint, failing on request error or non-200 status (capturing the
response body in the latter). -/
def dnsOp (attempt : Nat → HTTPOutcome) (k : Nat) : Except OpError Unit :=
  match attempt k with
  | .netErr m => .error (.reqFailed m)
  | .resp status statusText body =>
    if status ≠ 200 then .error (.badStatus statusText body) else .ok ()

/-- Fetcher.updateZonomiDNS (scheduler.go): iterate over the configured hosts
in order; for each host build the query (name=host, value=ip, type=A,
api_key=key) and run one GET under the host's own RetryNotify invocation;
a host whose retries exhaust contributes the pair (host, cause) to `errs` and
the loop continues with the remaining hosts.  Returns the list of (host, value)
calls issued, in order, and the list of (host, cause) failures, in order.
`attempt h k` is the outcome of host h's k-th request. -/
def updateZonomiDNS (attempt : String → Nat → HTTPOutcome)
    (delegateStop : String → Nat → Bool) (maxRetries : Nat) :
    List String → String → List (String × String) × List (String × OpError)
  | [], _ => ([], [])
  | host :: rest, ip =>
    let r := retryNotify (dnsOp (attempt host)) (delegateStop host) maxRetries
    let tail := updateZonomiDNS attempt delegateStop maxRetries rest ip
    ((host, ip) :: tail.1,
      match r.2 with
      | .ok _ => tail.2
      | .error e => (host, e) :: tail.2)

/-- The value updateZonomiDNS returns: nil when `errs` is empty, otherwise the
aggregate error carrying every (host, cause) pair ("errors updating hosts",
each element formatted as "failed for host %s: %w"). -/
def updateZonomiDNSResult (attempt : String → Nat → HTTPOutcome)
    (delegateStop : String → Nat → Bool) (maxRetries : Nat)
    (hosts : List String) (ip : String) : Option (List (String × OpError)) :=
  match (updateZonomiDNS attempt delegateStop maxRetries hosts ip).2 with
  | [] => none
  | fs => some fs

/-- The observable steps of one FetchIP cycle, in execution order. -/
inductive Event where
  | fetchedIP (ip : String)
  | readLast (ip : String)
  | appended (ip : String)
  | updateDNS (ip : String)
  | dnsCall (host : String) (value : String)
deriving DecidableEq, Repr

/-- The error FetchIP returns: the fetch error, the append error, or the DNS
aggregate error.  There is no cancellation case: the code has no path that
produces one. -/
inductive CycleError where
  | fetchFailed (e : OpError)
  | appendFailed (msg : String)
  | dnsFailed (failures : List (String × OpError))
deriving DecidableEq, Repr

/-- The environment of one cycle: the HTTP oracles, the configuration values
the cycle consults (MaxRetries, ZonomiHosts), the state of the log file, the
outcome of the append write, and the current RFC3339 time. -/
structure CycleEnv where
  fetchAttempt : Nat → HTTPOutcome
  fetchDelegateStop : Nat → Bool
  dnsAttempt : String → Nat → HTTPOutcome
  dnsDelegateStop : String → Nat → Bool
  maxRetries : Nat
  hosts : List String
  file : Option String
  appendError : Option String
  now : String

deriving instance DecidableEq for Except

/-- Result of one cycle: the event trace, the log file afterwards, and the
returned error if any. -/
structure CycleResult where
  events : List Event
  file : Option String
  result : Except CycleError Unit
deriving DecidableEq, Repr

/-- Fetcher.FetchIP (scheduler.go): fetch the current address (abort on
failure), read the last logged address (a read error is only logged, leaving
lastIP = ""), append the new observation (abort on failure), then — when
lastIP is empty or differs from the new address — call updateZonomiDNS and
return its aggregate error if any; otherwise skip the DNS update.  The
`appendError` oracle models an os-level write failure: when set, the file is
unchanged and the cycle returns that error. -/
def fetchIPAfterFetch (env : CycleEnv) : Except OpError String → CycleResult
  | .error e => ⟨[], env.file, .error (.fetchFailed e)⟩
  | .ok newIP =>
    let lastIP := readLastIP env.file
    match env.appendError with
    | some msg => ⟨[.fetchedIP newIP, .readLast lastIP], env.file, .error (.appendFailed msg)⟩
    | none =>
      let file2 := appendIP env.file newIP env.now
      if lastIP = "" ∨ lastIP ≠ newIP then
        let upd := updateZonomiDNS env.dnsAttempt env.dnsDelegateStop env.maxRetries env.hosts newIP
        ⟨[.fetchedIP newIP, .readLast lastIP, .appended newIP, .updateDNS newIP] ++
            upd.1.map (fun c => Event.dnsCall c.1 c.2),
          some file2,
          match upd.2 with
          | [] => .ok ()
          | fs => .error (.dnsFailed fs)⟩
      else
        ⟨[.fetchedIP newIP, .readLast lastIP, .appended newIP], some file2, .ok ()⟩

/-- The whole cycle: run fetchCurrentIP, then the rest of the body. -/
def FetchIP (env : CycleEnv) : CycleResult :=
  fetchIPAfterFetch env (fetchCurrentIP env.fetchAttempt env.fetchDelegateStop env.maxRetries).2

/-- A cancellation context: `cancelled t` says whether the context has been
cancelled by step t.  FetchIP's Go signature binds its context parameter to
the blank identifier, so the embedding carries the same information and, like
the code, cannot consult it. -/
structure Context where
  cancelled : Nat → Bool

/-- Fetcher.FetchIP with its full Go signature `FetchIP(_ context.Context)
error`: the context argument is discarded by the underscore binding, so the
body is FetchIP of the environment alone. -/
def FetchIPWithCtx (_ctx : Context) (env : CycleEnv) : CycleResult :=
  FetchIP env

/-- The address carried by an updateZonomiDNS-invocation event, if any. -/
def updateOfEvent : Event → Option String
  | .updateDNS ip => some ip
  | _ => none

/-- The address carried by an observation-append event, if any. -/
def appendOfEvent : Event → Option String
  | .appended ip => some ip
  | _ => none

/-- The (host, value) pair carried by a per-host DNS call event, if any. -/
def dnsCallOfEvent : Event → Option (String × String)
  | .dnsCall h v => some (h, v)
  | _ => none

/-- The addresses passed to updateZonomiDNS invocations in a trace. -/
def updates (r : CycleResult) : List String :=
  r.events.filterMap updateOfEvent

/-- The addresses of the observations appended in a trace. -/
def appends (r : CycleResult) : List String :=
  r.events.filterMap appendOfEvent

/-- The per-host DNS calls issued in a trace, as (host, value) pairs. -/
def dnsCalls (r : CycleResult) : List (String × String) :=
  r.events.filterMap dnsCallOfEvent

/-- Whether an event is the appending of an observation. -/
def isAppendEvent : Event → Bool
  | .appended _ => true
  | _ => false

/-- Whether an event belongs to the DNS update (the updateZonomiDNS invocation
or one of its per-host calls). -/
def isDnsEvent : Event → Bool
  | .updateDNS _ => true
  | .dnsCall _ _ => true
  | _ => false

/-- An address endpoint that always answers 200 with the given address. -/
def okFetch (ip : String) : Nat → HTTPOutcome :=
  fun _ => .resp 200 "200 OK" ("\x7b\"ip\":\"" ++ ip ++ "\"\x7d")

/-- An endpoint that always answers 500. -/
def fail500 : Nat → HTTPOutcome :=
  fun _ => .resp 500 "500 Internal Server Error" ""

/-- A backoff delegate that never stops on elapsed time. -/
def noStop : Nat → Bool := fun _ => false

/-- A DNS provider for which every host always succeeds. -/
def okDns : String → Nat → HTTPOutcome := fun _ _ => .resp 200 "200 OK" ""

/-- A DNS provider for which host h1 always answers 500 and every other host
answers 200. -/
def mixedDns : String → Nat → HTTPOutcome :=
  fun h _ => if h = "h1" then .resp 500 "500 Internal Server Error" "err-body"
             else .resp 200 "200 OK" ""

/-- A cycle environment in which the fetched address 5.5.5.5 equals the last
logged address. -/
def envUnchanged : CycleEnv :=
  { fetchAttempt := okFetch "5.5.5.5"
    fetchDelegateStop := noStop
    dnsAttempt := okDns
    dnsDelegateStop := fun _ _ => false
    maxRetries := 3
    hosts := ["h1", "h2"]
    file := some "\x7b\"ip\":\"5.5.5.5\",\"Timestamp\":\"t0\"\x7d\n"
    appendError := none
    now := "t1" }

/-- A cycle environment in which the fetched address 2.2.2.2 differs from the
last logged address 1.1.1.1 but the observation append fails. -/
def envAppendFail : CycleEnv :=
  { envUnchanged with
    fetchAttempt := okFetch "2.2.2.2"
    file := some "\x7b\"ip\":\"1.1.1.1\",\"Timestamp\":\"t0\"\x7d\n"
    appendError := some "disk full" }

/-- A cycle environment whose address endpoint always answers 500. -/
def env500 : CycleEnv :=
  { envUnchanged with fetchAttempt := fail500 }

/-- A context that is cancelled from the start. -/
def cancelledCtx : Context := ⟨fun _ => true⟩

/-- A context that is never cancelled. -/
def liveCtx : Context := ⟨fun _ => false⟩

/-- A cycle environment whose log ends in a decodable record without an ip
member, after a genuine record for 1.2.3.4, and whose endpoint returns
1.2.3.4 again. -/
def envStaleLog : CycleEnv :=
  { envUnchanged with
    fetchAttempt := okFetch "1.2.3.4"
    file := some ("\x7b\"ip\":\"1.2.3.4\",\"Timestamp\":\"t0\"\x7d\n" ++
      "\x7b\"timestamp\":\"t1\"\x7d\n") }

/-- A cycle environment whose address endpoint answers 200 with the body
consisting of an empty JSON object. -/
def envEmptyBody : CycleEnv :=
  { envUnchanged with
    fetchAttempt := fun _ => .resp 200 "200 OK" "\x7b\x7d"
    file := some "\x7b\"ip\":\"7.7.7.7\",\"Timestamp\":\"t0\"\x7d\n" }

/-! ### Helper lemmas -/

theorem foldl_decode_skip (lines : List String) (acc : String) :
    lines.foldl (fun lastIP line =>
      match unmarshalIPLogEntry line with
      | some entry => entry.IP
      | none => lastIP) acc =
    (((lines.filterMap unmarshalIPLogEntry).getLast?).map IPLogEntry.IP).getD acc := by
  induction lines generalizing acc with
  | nil => rfl
  | cons l rest ih =>
    cases hu : unmarshalIPLogEntry l with
    | none => simp [List.foldl_cons, hu, List.filterMap_cons, ih]
    | some a =>
      simp only [List.foldl_cons, hu, List.filterMap_cons, ih]
      cases hfm : rest.filterMap unmarshalIPLogEntry with
      | nil => simp [hfm]
      | cons b bs =>
        obtain ⟨x, hx⟩ :=
          Option.isSome_iff_exists.mp (List.getLast?_isSome.mpr (List.cons_ne_nil b bs))
        simp [hfm, List.getLast?_cons_cons, hx]

theorem readLastIP_eq (content : String) :
    readLastIP (some content) =
      ((((scanLines content).filterMap unmarshalIPLogEntry).getLast?).map IPLogEntry.IP).getD "" :=
  foldl_decode_skip _ _

theorem retryGo_le {α : Type} (op : Nat → Except OpError α) (dstop : Nat → Bool) :
    ∀ r k, (retryGo op dstop k r).1 ≤ k + r + 1 := by
  intro r
  induction r with
  | zero => intro k; simp [retryGo]
  | succ r ih =>
    intro k
    simp only [retryGo]
    cases op k with
    | ok a => simp
    | error e =>
      by_cases hd : dstop k
      · simp [hd]
      · simpa [hd] using le_trans (ih (k + 1)) (by omega)

theorem retryGo_fail {α : Type} (op : Nat → Except OpError α) (dstop : Nat → Bool)
    (h : ∀ k, ∃ e, op k = .error e) :
    ∀ r k, ∃ e, op ((retryGo op dstop k r).1 - 1) = .error e ∧
      (retryGo op dstop k r).2 = .error e := by
  intro r
  induction r with
  | zero =>
    intro k
    obtain ⟨e, he⟩ := h k
    exact ⟨e, by simp [retryGo, he], by simp [retryGo, he]⟩
  | succ r ih =>
    intro k
    obtain ⟨e, he⟩ := h k
    by_cases hd : dstop k
    · exact ⟨e, by simp [retryGo, he, hd], by simp [retryGo, he, hd]⟩
    · simpa [retryGo, he, hd] using ih (k + 1)

theorem retryNotify_ok_first {α : Type} (op : Nat → Except OpError α) (dstop : Nat → Bool)
    (m : Nat) (a : α) (h : op 0 = .ok a) :
    retryNotify op dstop m = (1, .ok a) := by
  cases m <;> simp [retryNotify, retryGo, h]

theorem updateZonomiDNS_calls (attempt : String → Nat → HTTPOutcome)
    (dstop : String → Nat → Bool) (m : Nat) (hosts : List String) (ip : String) :
    (updateZonomiDNS attempt dstop m hosts ip).1 = hosts.map (fun h => (h, ip)) := by
  induction hosts with
  | nil => rfl
  | cons h rest ih => simp [updateZonomiDNS, ih]

theorem updateZonomiDNS_failures (attempt : String → Nat → HTTPOutcome)
    (dstop : String → Nat → Bool) (m : Nat) (hosts : List String) (ip : String) :
    (updateZonomiDNS attempt dstop m hosts ip).2 =
      hosts.filterMap (fun h =>
        match (retryNotify (dnsOp (attempt h)) (dstop h) m).2 with
        | .error e => some (h, e)
        | .ok _ => none) := by
  induction hosts with
  | nil => rfl
  | cons h rest ih =>
    cases hr : (retryNotify (dnsOp (attempt h)) (dstop h) m).2 with
    | ok a => simp [updateZonomiDNS, hr, ih, List.filterMap_cons]
    | error e => simp [updateZonomiDNS, hr, ih, List.filterMap_cons]

theorem filterMap_dnsCall_none {α : Type} (f : Event → Option α)
    (hf : ∀ h v, f (.dnsCall h v) = none) :
    ∀ cs : List (String × String), (cs.map fun c => Event.dnsCall c.1 c.2).filterMap f = [] := by
  intro cs
  induction cs with
  | nil => rfl
  | cons c rest ih => simp [List.filterMap_cons, hf, ih]

theorem filterMap_dnsCall_id :
    ∀ cs : List (String × String),
      (cs.map fun c => Event.dnsCall c.1 c.2).filterMap dnsCallOfEvent = cs := by
  intro cs
  induction cs with
  | nil => rfl
  | cons c rest ih => simp [List.filterMap_cons, dnsCallOfEvent, ih]

theorem filter_dnsCall_true (p : Event → Bool) (hp : ∀ h v, p (.dnsCall h v) = true) :
    ∀ cs : List (String × String),
      (cs.map fun c => Event.dnsCall c.1 c.2).filter p = cs.map fun c => Event.dnsCall c.1 c.2 := by
  intro cs
  induction cs with
  | nil => rfl
  | cons c rest ih => simp [List.filter_cons, hp, ih]

theorem filter_dnsCall_false (p : Event → Bool) (hp : ∀ h v, p (.dnsCall h v) = false) :
    ∀ cs : List (String × String), (cs.map fun c => Event.dnsCall c.1 c.2).filter p = [] := by
  intro cs
  induction cs with
  | nil => rfl
  | cons c rest ih => simp [List.filter_cons, hp, ih]

theorem fetchIP_fetch_error (env : CycleEnv) (e : OpError)
    (h : (fetchCurrentIP env.fetchAttempt env.fetchDelegateStop env.maxRetries).2 = .error e) :
    FetchIP env = ⟨[], env.file, .error (.fetchFailed e)⟩ := by
  unfold FetchIP
  rw [h]
  rfl

theorem fetchIP_append_error (env : CycleEnv) (ip msg : String)
    (hF : (fetchCurrentIP env.fetchAttempt env.fetchDelegateStop env.maxRetries).2 = .ok ip)
    (hA : env.appendError = some msg) :
    FetchIP env = ⟨[.fetchedIP ip, .readLast (readLastIP env.file)], env.file,
      .error (.appendFailed msg)⟩ := by
  unfold FetchIP
  rw [hF]
  simp [fetchIPAfterFetch, hA]

theorem fetchIP_update_branch (env : CycleEnv) (ip : String)
    (hF : (fetchCurrentIP env.fetchAttempt env.fetchDelegateStop env.maxRetries).2 = .ok ip)
    (hA : env.appendError = none)
    (hc : readLastIP env.file = "" ∨ readLastIP env.file ≠ ip) :
    FetchIP env =
      ⟨[.fetchedIP ip, .readLast (readLastIP env.file), .appended ip, .updateDNS ip] ++
          (updateZonomiDNS env.dnsAttempt env.dnsDelegateStop env.maxRetries env.hosts ip).1.map
            (fun c => Event.dnsCall c.1 c.2),
        some (appendIP env.file ip env.now),
        match (updateZonomiDNS env.dnsAttempt env.dnsDelegateStop env.maxRetries env.hosts ip).2 with
        | [] => .ok ()
        | fs => .error (.dnsFailed fs)⟩ := by
  unfold FetchIP
  rw [hF]
  simp only [fetchIPAfterFetch, hA]
  rw [if_pos hc]

theorem fetchIP_unchanged_branch (env : CycleEnv) (ip : String)
    (hF : (fetchCurrentIP env.fetchAttempt env.fetchDelegateStop env.maxRetries).2 = .ok ip)
    (hA : env.appendError = none)
    (hc : ¬(readLastIP env.file = "" ∨ readLastIP env.file ≠ ip)) :
    FetchIP env =
      ⟨[.fetchedIP ip, .readLast (readLastIP env.file), .appended ip],
        some (appendIP env.file ip env.now), .ok ()⟩ := by
  unfold FetchIP
  rw [hF]
  simp only [fetchIPAfterFetch, hA]
  rw [if_neg hc]

/-! ### Claim theorems -/

/-- C1, counterexample: the claim quantifies over every cycle whose fetch
succeeds, but when the observation append fails the code aborts before the DNS
update even though the last recorded address differs from the new one — so
"update invoked iff last address empty or different" fails in the only-if
direction.  Concretely: fetch returns 2.2.2.2, the log holds 1.1.1.1, the
append fails, and no update is invoked (and no observation is appended). -/
theorem fetchIP_decision_claim_counterexample :
    (fetchCurrentIP envAppendFail.fetchAttempt envAppendFail.fetchDelegateStop
        envAppendFail.maxRetries).2 = Except.ok "2.2.2.2" ∧
    readLastIP envAppendFail.file = "1.1.1.1" ∧
    ("1.1.1.1" = "" ∨ ("1.1.1.1" : String) ≠ "2.2.2.2") ∧
    updates (FetchIP envAppendFail) = [] ∧
    appends (FetchIP envAppendFail) = [] := by
  decide

/-- C1, amended: for every cycle in which the fetch succeeds and the
observation append succeeds, updateZonomiDNS is invoked with the newly fetched
address iff the last recorded address is empty or differs from it; when they
are equal no DNS update call is made and exactly one new observation with that
address is still appended. -/
theorem fetchIP_update_decision (env : CycleEnv) (ip : String)
    (hF : (fetchCurrentIP env.fetchAttempt env.fetchDelegateStop env.maxRetries).2 =
      Except.ok ip)
    (hA : env.appendError = none) :
    updates (FetchIP env) =
      (if readLastIP env.file = "" ∨ readLastIP env.file ≠ ip then [ip] else []) ∧
    appends (FetchIP env) = [ip] := by
  by_cases hc : readLastIP env.file = "" ∨ readLastIP env.file ≠ ip
  · rw [fetchIP_update_branch env ip hF hA hc, if_pos hc]
    constructor
    · simp [updates, List.filterMap_append, updateOfEvent,
        filterMap_dnsCall_none updateOfEvent (fun _ _ => rfl)]
    · simp [appends, List.filterMap_append, appendOfEvent,
        filterMap_dnsCall_none appendOfEvent (fun _ _ => rfl)]
  · rw [fetchIP_unchanged_branch env ip hF hA hc, if_neg hc]
    exact ⟨by simp [updates, updateOfEvent], by simp [appends, appendOfEvent]⟩

/-- C1, witness: the unchanged case — last address 5.5.5.5 equals the fetch
result, so no update is invoked and one observation is appended. -/
theorem fetchIP_update_decision_witness :
    updates (FetchIP envUnchanged) =
      (if readLastIP envUnchanged.file = "" ∨ readLastIP envUnchanged.file ≠ "5.5.5.5"
       then ["5.5.5.5"] else []) ∧
    appends (FetchIP envUnchanged) = ["5.5.5.5"] :=
  fetchIP_update_decision envUnchanged "5.5.5.5" (by decide) rfl

/-- C2: in every cycle the observation append happens strictly before every
DNS-update event (among the append and DNS events of the trace, all appends
precede all DNS events), and if the append fails the cycle aborts with that
append error and no DNS event occurs at all. -/
theorem fetchIP_append_before_update (env : CycleEnv) :
    ((FetchIP env).events.filter (fun e => isAppendEvent e || isDnsEvent e) =
      (FetchIP env).events.filter isAppendEvent ++
        (FetchIP env).events.filter isDnsEvent) ∧
    (∀ ip msg,
      (fetchCurrentIP env.fetchAttempt env.fetchDelegateStop env.maxRetries).2 =
        Except.ok ip →
      env.appendError = some msg →
      (FetchIP env).result = Except.error (.appendFailed msg) ∧
      (FetchIP env).events.filter isDnsEvent = []) := by
  constructor
  · cases hfr : (fetchCurrentIP env.fetchAttempt env.fetchDelegateStop env.maxRetries).2 with
    | error e => rw [fetchIP_fetch_error env e hfr]; rfl
    | ok ip =>
      cases hA : env.appendError with
      | some msg => rw [fetchIP_append_error env ip msg hfr hA]; rfl
      | none =>
        by_cases hc : readLastIP env.file = "" ∨ readLastIP env.file ≠ ip
        · rw [fetchIP_update_branch env ip hfr hA hc]
          show List.filter _ (_ ++ _) = List.filter _ (_ ++ _) ++ List.filter _ (_ ++ _)
          rw [List.filter_append, List.filter_append, List.filter_append,
            filter_dnsCall_true (fun e => isAppendEvent e || isDnsEvent e) (fun _ _ => rfl),
            filter_dnsCall_true isDnsEvent (fun _ _ => rfl),
            filter_dnsCall_false isAppendEvent (fun _ _ => rfl)]
          rfl
        · rw [fetchIP_unchanged_branch env ip hfr hA hc]
          rfl
  · intro ip msg hF hA
    rw [fetchIP_append_error env ip msg hF hA]
    exact ⟨rfl, rfl⟩

/-- C2, witness: the append-failure environment — the cycle ends with the
append error and has no DNS event, and the ordering property holds. -/
theorem fetchIP_append_before_update_witness :
    ((FetchIP envAppendFail).events.filter (fun e => isAppendEvent e || isDnsEvent e) =
      (FetchIP envAppendFail).events.filter isAppendEvent ++
        (FetchIP envAppendFail).events.filter isDnsEvent) ∧
    ((FetchIP envAppendFail).result = Except.error (.appendFailed "disk full") ∧
      (FetchIP envAppendFail).events.filter isDnsEvent = []) :=
  ⟨(fetchIP_append_before_update envAppendFail).1,
    (fetchIP_append_before_update envAppendFail).2 "2.2.2.2" "disk full" (by decide) rfl⟩

/-- C3: for every non-empty ordered host list, updateZonomiDNS issues one call
per host in order (no short-circuit on earlier failures), the collected
failures are exactly the failed hosts paired with their underlying causes, and
the returned value is nil iff no host failed, otherwise the aggregate of all
the (host, cause) pairs. -/
theorem updateZonomiDNS_aggregate (attempt : String → Nat → HTTPOutcome)
    (dstop : String → Nat → Bool) (m : Nat) (hosts : List String) (ip : String)
    (_hne : hosts ≠ []) :
    (updateZonomiDNS attempt dstop m hosts ip).1 = hosts.map (fun h => (h, ip)) ∧
    (updateZonomiDNS attempt dstop m hosts ip).2 =
      hosts.filterMap (fun h =>
        match (retryNotify (dnsOp (attempt h)) (dstop h) m).2 with
        | .error e => some (h, e)
        | .ok _ => none) ∧
    updateZonomiDNSResult attempt dstop m hosts ip =
      (if (updateZonomiDNS attempt dstop m hosts ip).2 = [] then none
       else some ((updateZonomiDNS attempt dstop m hosts ip).2)) := by
  refine ⟨updateZonomiDNS_calls attempt dstop m hosts ip,
    updateZonomiDNS_failures attempt dstop m hosts ip, ?_⟩
  unfold updateZonomiDNSResult
  rcases hf : (updateZonomiDNS attempt dstop m hosts ip).2 with _ | ⟨a, as⟩ <;> simp [hf]

/-- C3, witness: hosts [h1, h2] with h1 always answering 500 and h2 answering
200 — both are called and the aggregate names only h1 with its cause. -/
theorem updateZonomiDNS_aggregate_witness :
    (updateZonomiDNS mixedDns (fun _ _ => false) 1 ["h1", "h2"] "9.9.9.9").1 =
      (["h1", "h2"].map fun h => (h, "9.9.9.9")) ∧
    (updateZonomiDNS mixedDns (fun _ _ => false) 1 ["h1", "h2"] "9.9.9.9").2 =
      (["h1", "h2"].filterMap (fun h =>
        match (retryNotify (dnsOp (mixedDns h)) ((fun _ _ => false) h) 1).2 with
        | .error e => some (h, e)
        | .ok _ => none)) ∧
    updateZonomiDNSResult mixedDns (fun _ _ => false) 1 ["h1", "h2"] "9.9.9.9" =
      (if (updateZonomiDNS mixedDns (fun _ _ => false) 1 ["h1", "h2"] "9.9.9.9").2 = []
       then none
       else some ((updateZonomiDNS mixedDns (fun _ _ => false) 1 ["h1", "h2"] "9.9.9.9").2)) :=
  updateZonomiDNS_aggregate mixedDns (fun _ _ => false) 1 ["h1", "h2"] "9.9.9.9" (by decide)

/-- C4: readLastIP scans all records, skips records that fail to decode, and
returns the IP field of the last record that decodes (the empty address when
no record decodes or the file does not exist); in particular one corrupt line
followed by a valid record for 9.9.9.9 yields 9.9.9.9. -/
theorem readLastIP_skips_malformed :
    (∀ content : String,
      readLastIP (some content) =
        ((((scanLines content).filterMap unmarshalIPLogEntry).getLast?).map
          IPLogEntry.IP).getD "") ∧
    readLastIP none = "" ∧
    readLastIP
        (some "corrupt line\n\x7b\"ip\":\"9.9.9.9\",\"timestamp\":\"2025-01-01T00:00:00Z\"\x7d\n") =
      "9.9.9.9" :=
  ⟨readLastIP_eq, rfl, by decide⟩

/-- C5, counterexample: with MaxRetries = 1 and an always-failing endpoint,
fetchCurrentIP performs 2 attempts, exceeding the claimed bound of
max_attempts = 1 attempts (WithMaxRetries bounds retries, not attempts). -/
theorem fetch_retry_attempts_counterexample :
    (fetchCurrentIP fail500 noStop 1).1 = 2 ∧ ¬(fetchCurrentIP fail500 noStop 1).1 ≤ 1 := by
  decide

/-- C5, amended: when every attempt of the address-source operation fails, the
cycle performs at most max_attempts + 1 attempts (one initial attempt plus at
most max_attempts retries), returns the last underlying operation error (not a
generic retries-exhausted error) as the cycle's error, and appends zero
observations (the log file is unchanged). -/
theorem fetch_retry_exhaustion (env : CycleEnv)
    (hFail : ∀ k, ∃ e, fetchOp env.fetchAttempt k = Except.error e) :
    (fetchCurrentIP env.fetchAttempt env.fetchDelegateStop env.maxRetries).1 ≤
      env.maxRetries + 1 ∧
    (∃ e, fetchOp env.fetchAttempt
        ((fetchCurrentIP env.fetchAttempt env.fetchDelegateStop env.maxRetries).1 - 1) =
          Except.error e ∧
      (fetchCurrentIP env.fetchAttempt env.fetchDelegateStop env.maxRetries).2 =
        Except.error e ∧
      (FetchIP env).result = Except.error (.fetchFailed e)) ∧
    appends (FetchIP env) = [] ∧
    (FetchIP env).file = env.file := by
  have hle := retryGo_le (fetchOp env.fetchAttempt) env.fetchDelegateStop env.maxRetries 0
  obtain ⟨e, he1, he2⟩ :=
    retryGo_fail (fetchOp env.fetchAttempt) env.fetchDelegateStop hFail env.maxRetries 0
  have hfe : (fetchCurrentIP env.fetchAttempt env.fetchDelegateStop env.maxRetries).2 =
      Except.error e := he2
  rw [fetchIP_fetch_error env e hfe]
  exact ⟨by simpa using hle, ⟨e, he1, he2, rfl⟩, by simp [appends], rfl⟩

/-- C5, witness: the always-500 environment with MaxRetries = 3 — at most four
attempts, the final 500 error surfaces, and the log is unchanged. -/
theorem fetch_retry_exhaustion_witness :
    (fetchCurrentIP env500.fetchAttempt env500.fetchDelegateStop env500.maxRetries).1 ≤
      env500.maxRetries + 1 ∧
    (∃ e, fetchOp env500.fetchAttempt
        ((fetchCurrentIP env500.fetchAttempt env500.fetchDelegateStop env500.maxRetries).1 - 1) =
          Except.error e ∧
      (fetchCurrentIP env500.fetchAttempt env500.fetchDelegateStop env500.maxRetries).2 =
        Except.error e ∧
      (FetchIP env500).result = Except.error (.fetchFailed e)) ∧
    appends (FetchIP env500) = [] ∧
    (FetchIP env500).file = env500.file :=
  fetch_retry_exhaustion env500
    (fun _ => ⟨.badStatus "500 Internal Server Error" "", rfl⟩)

/-- C6: FetchIP binds its context parameter to the blank identifier, so the
cycle's behaviour is identical for any two contexts; with a context cancelled
from the start and an always-failing endpoint, the retry loop still performs
all MaxRetries + 1 = 4 attempts and the cycle reports the fetch failure — no
cancellation outcome exists anywhere in the cycle's error type. -/
theorem fetchIP_ignores_cancellation :
    (∀ (ctx ctx' : Context) (env : CycleEnv), FetchIPWithCtx ctx env = FetchIPWithCtx ctx' env) ∧
    (fetchCurrentIP env500.fetchAttempt env500.fetchDelegateStop env500.maxRetries).1 = 4 ∧
    (FetchIPWithCtx cancelledCtx env500).result =
      Except.error (.fetchFailed (.badStatus "500 Internal Server Error" "")) :=
  ⟨fun _ _ _ => rfl, by decide, by decide⟩

/-- C7: the record appendIP writes serializes the timestamp under the key
"Timestamp", not "timestamp" — the Go struct tag json:timestamp is malformed
(missing quotes), so encoding/json falls back to the capitalized field name,
contradicting the documented log format. -/
theorem appendIP_timestamp_key_capitalized :
    marshalIPLogEntry { IP := "1.2.3.4", Timestamp := "2025-01-01T00:00:00Z" } =
      "\x7b\"ip\":\"1.2.3.4\",\"Timestamp\":\"2025-01-01T00:00:00Z\"\x7d" ∧
    appendIP none "1.2.3.4" "2025-01-01T00:00:00Z" =
      "\x7b\"ip\":\"1.2.3.4\",\"Timestamp\":\"2025-01-01T00:00:00Z\"\x7d" ++ "\n" ∧
    parseFlatObject (marshalIPLogEntry { IP := "1.2.3.4", Timestamp := "2025-01-01T00:00:00Z" }) =
      some [("ip", "1.2.3.4"), ("Timestamp", "2025-01-01T00:00:00Z")] ∧
    ipLogEntryTimestampKey ≠ "timestamp" := by
  decide

/-- C8: appendIP leaves all previously written bytes unchanged — the log after
a successful append is exactly the old content followed by one serialized
record and one newline separator — and an absent file is created holding just
that record. -/
theorem appendIP_appends_one_record (file : Option String) (ip now : String) :
    appendIP file ip now =
      file.getD "" ++ (marshalIPLogEntry { IP := ip, Timestamp := now } ++ "\n") ∧
    appendIP none ip now = marshalIPLogEntry { IP := ip, Timestamp := now } ++ "\n" := by
  cases file <;> exact ⟨rfl, rfl⟩

/-- C9: when the last decodable record of the log lacks an ip member, its
decoded IP field is the empty string, so readLastIP returns the empty address
even when an earlier record holds a genuine one, and the following cycle takes
the first-run branch and invokes the DNS update with the newly fetched address
even when it equals the last genuinely recorded one. -/
theorem readLastIP_trailing_bad_record (env : CycleEnv) (content : String) (e : IPLogEntry)
    (ip : String)
    (hfile : env.file = some content)
    (hlast : ((scanLines content).filterMap unmarshalIPLogEntry).getLast? = some e)
    (hnoip : e.IP = "")
    (hF : (fetchCurrentIP env.fetchAttempt env.fetchDelegateStop env.maxRetries).2 =
      Except.ok ip)
    (hA : env.appendError = none) :
    readLastIP env.file = "" ∧ updates (FetchIP env) = [ip] := by
  have hlip : readLastIP env.file = "" := by
    rw [hfile, readLastIP_eq, hlast]
    simp [hnoip]
  refine ⟨hlip, ?_⟩
  rw [fetchIP_update_branch env ip hF hA (Or.inl hlip)]
  simp [updates, List.filterMap_append, updateOfEvent,
    filterMap_dnsCall_none updateOfEvent (fun _ _ => rfl)]

/-- C9, witness: a log holding a genuine record for 1.2.3.4 followed by a
record with only a timestamp member, and a fetch returning 1.2.3.4 again —
readLastIP yields the empty address and the update is still invoked. -/
theorem readLastIP_trailing_bad_record_witness :
    readLastIP envStaleLog.file = "" ∧ updates (FetchIP envStaleLog) = ["1.2.3.4"] :=
  readLastIP_trailing_bad_record envStaleLog
    ("\x7b\"ip\":\"1.2.3.4\",\"Timestamp\":\"t0\"\x7d\n\x7b\"timestamp\":\"t1\"\x7d\n")
    { IP := "", Timestamp := "t1" } "1.2.3.4" (by decide) (by decide) rfl (by decide) rfl

/-- C10: when the address endpoint answers 200 with a well-formed JSON object
that lacks an ip member, fetchCurrentIP succeeds on the first attempt and
returns the empty string; the cycle then appends an observation whose address
is the empty string, invokes the DNS update with the empty string, and pushes
it as the value to every configured host. -/
theorem fetch_missing_ip_field (env : CycleEnv) (st body : String)
    (ms : List (String × String))
    (hAtt : env.fetchAttempt 0 = .resp 200 st body)
    (hParse : parseFlatObject body = some ms)
    (hNoIp : goFieldValue "ip" ms = none)
    (hA : env.appendError = none) :
    (fetchCurrentIP env.fetchAttempt env.fetchDelegateStop env.maxRetries).2 =
      Except.ok "" ∧
    appends (FetchIP env) = [""] ∧
    updates (FetchIP env) = [""] ∧
    dnsCalls (FetchIP env) = env.hosts.map (fun h => (h, "")) ∧
    (FetchIP env).file = some (appendIP env.file "" env.now) := by
  have hop : fetchOp env.fetchAttempt 0 = .ok "" := by
    simp [fetchOp, hAtt, unmarshalIPResponse, hParse, hNoIp]
  have hF : (fetchCurrentIP env.fetchAttempt env.fetchDelegateStop env.maxRetries).2 =
      Except.ok "" := by
    have h1 := retryNotify_ok_first (fetchOp env.fetchAttempt) env.fetchDelegateStop
      env.maxRetries "" hop
    simp [fetchCurrentIP, h1]
  rw [fetchIP_update_branch env "" hF hA (eq_or_ne (readLastIP env.file) "")]
  refine ⟨hF, ?_, ?_, ?_, rfl⟩
  · simp [appends, List.filterMap_append, appendOfEvent,
      filterMap_dnsCall_none appendOfEvent (fun _ _ => rfl)]
  · simp [updates, List.filterMap_append, updateOfEvent,
      filterMap_dnsCall_none updateOfEvent (fun _ _ => rfl)]
  · simp only [dnsCalls, List.filterMap_append, filterMap_dnsCall_id,
      updateZonomiDNS_calls]
    rfl

/-- C10, witness: the endpoint answers 200 with the empty JSON object — the
fetch succeeds with the empty string, one empty-address observation is
appended, and the empty string is pushed to both configured hosts. -/
theorem fetch_missing_ip_field_witness :
    (fetchCurrentIP envEmptyBody.fetchAttempt envEmptyBody.fetchDelegateStop
        envEmptyBody.maxRetries).2 = Except.ok "" ∧
    appends (FetchIP envEmptyBody) = [""] ∧
    updates (FetchIP envEmptyBody) = [""] ∧
    dnsCalls (FetchIP envEmptyBody) = envEmptyBody.hosts.map (fun h => (h, "")) ∧
    (FetchIP envEmptyBody).file = some (appendIP envEmptyBody.file "" envEmptyBody.now) :=
  fetch_missing_ip_field envEmptyBody "200 OK" "\x7b\x7d" [] rfl (by decide) rfl rfl

end ZonoCaller
